import Mathlib

/-!
Verification of the alumina computation-graph engine's op layer against its
specification.  The development shallowly embeds the relevant source files:

* src/src/ops/math/mul.rs        — the Mul op (forward and backward passes)
* src/src/ops/numeric_check.rs   — the numeric-gradient verification harness
* src/src/ops/broadcast.rs       — the (older generation) Broadcast op
* src/src/ops/math/mul.rs lines 91-101 — MulInstance shape propagation

Machine floats (f32) are idealised as exact rationals where only ring
operations occur in the code, and as real numbers where square roots are
taken.  ndarray tensors are embedded as a shape (list of extents) together
with a total function from multi-indices to values; ndarray Zip loops become
pointwise maps (independent writes) or sequential folds (the aliased
accumulation in MulBackward).
-/

/-- A tensor shape: the list of dimension extents, outermost first. -/
abbrev TShape := List Nat

/-- A multi-index into a tensor, one coordinate per dimension. -/
abbrev TIndex := List Nat

/-- Validity of a multi-index for a shape: same rank, every coordinate in range. -/
def validIdx : TShape → TIndex → Bool
  | [], [] => true
  | d :: ds, i :: is => decide (i < d) && validIdx ds is
  | _, _ => false

/-- Row-major enumeration of all valid multi-indices of a shape, mirroring
ndarray iteration order. -/
def allIndices : TShape → List TIndex
  | [] => [[]]
  | d :: ds => (List.range d).flatMap (fun i => (allIndices ds).map (fun t => i :: t))

/-- ndarray broadcast compatibility: the source shape, right-aligned against the
target, must agree with the target on every dimension or have extent 1 there. -/
def bcastOk (src tgt : TShape) : Bool :=
  decide (src.length ≤ tgt.length) &&
    (List.zip src (tgt.drop (tgt.length - src.length))).all
      (fun p => p.1 == p.2 || p.1 == 1)

/-- The source index a broadcast view reads for a given target index: drop the
extra leading coordinates, and read position 0 along every extent-1 dimension. -/
def bcastIdx (src tgt : TShape) (idx : TIndex) : TIndex :=
  List.zipWith (fun f i => if f == 1 then 0 else i) src (idx.drop (tgt.length - src.length))

/-- A tensor: a shape together with its (total) element function.  f32 entries
are idealised as rationals. -/
structure Tensor where
  shape : TShape
  data : TIndex → ℚ

/-- An error raised by a pass's run step: the originating pass's name and a
descriptive message, embedding ErrorKind PassError. -/
structure PassError where
  passName : String
  msg : String
deriving DecidableEq

/-- The storage slots MulForward and MulBackward touch, as DataIDs:
the two input values, the output gradient, and the two input gradients. -/
inductive MulDataID where
  | val1
  | val2
  | gradOut
  | grad1
  | grad2
deriving DecidableEq

/-- The storage visible to MulBackward: the buffers for the DataIDs it declared,
plus the is_required flags Storage reports for the two gradient outputs. -/
structure MulStorage where
  input1 : Tensor
  input2 : Tensor
  outputGrad : Tensor
  input1Grad : Tensor
  input2Grad : Tensor
  req1 : Bool
  req2 : Bool

/-- The outcome of running MulBackward: the pass result, the storage after the
pass, and the list of DataIDs fetched from Storage, in fetch order. -/
structure MulBwdResult where
  result : Except PassError Unit
  store : MulStorage
  fetched : List MulDataID

/-- The parallel Zip of MulBackward accumulating into input1's gradient:
input1_grad gains (broadcast input2) times output_grad at every element.
Independent writes, so the pointwise map is the faithful embedding. -/
def mulBwdGrad1 (s : MulStorage) : Tensor :=
  ⟨s.input1Grad.shape, fun i =>
    s.input1Grad.data i +
      s.input2.data (bcastIdx s.input2.shape s.input1Grad.shape i) * s.outputGrad.data i⟩

/-- The serialized Zip of MulBackward accumulating into input2's gradient:
iterating over input1's shape in order, each position adds
input1 times output_grad through the broadcast (aliased) view of input2_grad. -/
def mulBwdGrad2 (s : MulStorage) : Tensor :=
  ⟨s.input2Grad.shape,
    (allIndices s.input1.shape).foldl
      (fun g i =>
        Function.update g (bcastIdx s.input2Grad.shape s.input1.shape i)
          (g (bcastIdx s.input2Grad.shape s.input1.shape i) +
            s.input1.data i * s.outputGrad.data i))
      s.input2Grad.data⟩

/-- Embedding of MulBackward::run (src/src/ops/math/mul.rs lines 193-239):
fetch input1, input2 and the output gradient; run the three ensure shape
checks in source order; then accumulate into each input's gradient only if
Storage reports it required, fetching its buffer only in that case. -/
def mulBackwardRun (s : MulStorage) : MulBwdResult :=
  if s.input1.shape = s.outputGrad.shape then
    if bcastOk s.input2.shape s.input1.shape then
      if bcastOk s.input2.shape s.outputGrad.shape then
        { result := Except.ok (),
          store :=
            { s with
              input1Grad := if s.req1 then mulBwdGrad1 s else s.input1Grad,
              input2Grad := if s.req2 then mulBwdGrad2 s else s.input2Grad },
          fetched := [MulDataID.val1, MulDataID.val2, MulDataID.gradOut] ++
            (if s.req1 then [MulDataID.grad1] else []) ++
            (if s.req2 then [MulDataID.grad2] else []) }
      else
        { result := Except.error
            ⟨"MulBackward", "Could not broadcast input2 shape to output shape"⟩,
          store := s,
          fetched := [MulDataID.val1, MulDataID.val2, MulDataID.gradOut] }
    else
      { result := Except.error
          ⟨"MulBackward", "Could not broadcast input2 shape to input1 shape"⟩,
        store := s,
        fetched := [MulDataID.val1, MulDataID.val2, MulDataID.gradOut] }
  else
    { result := Except.error
        ⟨"MulBackward", "input1 shape did not match output shape"⟩,
      store := s,
      fetched := [MulDataID.val1, MulDataID.val2, MulDataID.gradOut] }

/-- The storage visible to MulForward: the two input values and the output value. -/
structure MulFwdStorage where
  input1 : Tensor
  input2 : Tensor
  output : Tensor

/-- The outcome of running MulForward: the pass result and the storage after. -/
structure MulFwdResult where
  result : Except PassError Unit
  store : MulFwdStorage

/-- Embedding of MulForward::run (src/src/ops/math/mul.rs lines 133-162):
the three ensure shape checks in source order, then the parallel Zip adding
input1 times (broadcast input2) into the output. -/
def mulForwardRun (s : MulFwdStorage) : MulFwdResult :=
  if s.input1.shape = s.output.shape then
    if bcastOk s.input2.shape s.input1.shape then
      if bcastOk s.input2.shape s.output.shape then
        { result := Except.ok (),
          store :=
            { s with
              output := ⟨s.output.shape, fun i =>
                s.output.data i +
                  s.input1.data i * s.input2.data (bcastIdx s.input2.shape s.output.shape i)⟩ } }
      else
        ⟨Except.error ⟨"MulForward", "Could not broadcast input2 shape to output shape"⟩, s⟩
    else
      ⟨Except.error ⟨"MulForward", "Could not broadcast input2 shape to input1 shape"⟩, s⟩
  else
    ⟨Except.error ⟨"MulForward", "input1 shape did not match output shape"⟩, s⟩

/-- Sequentially folding aliased updates over a list of positions accumulates,
at every target cell, the sum of the contributions of exactly the positions
that map onto that cell. -/
theorem foldl_update_add {β : Type} [DecidableEq β] (f : TIndex → β) (w : TIndex → ℚ) :
    ∀ (l : List TIndex) (g : β → ℚ) (j : β),
      (l.foldl (fun g i => Function.update g (f i) (g (f i) + w i)) g) j
        = g j + ((l.filter (fun i => decide (f i = j))).map w).sum := by
  intro l
  induction l with
  | nil => intro g j; simp
  | cons a t ih =>
      intro g j
      rw [List.foldl_cons, ih]
      by_cases h : f a = j
      · subst h
        simp [List.filter_cons, Function.update_same]
        ring
      · have h2 : ¬ (j = f a) := fun hh => h hh.symm
        simp [List.filter_cons, h, Function.update_apply, if_neg h2]

/-- C1: on storage with matching input1/output-gradient shapes and a
broadcastable input2 (and gradient buffers of their nodes' shapes, the Storage
invariant), MulBackward succeeds; when required, every element of input1's
gradient gains (broadcast input2) times output_grad, and every element of
input2's gradient gains the sum of input1 times output_grad over all positions
that broadcast onto it. -/
theorem c1_mulBackward_grad_accumulation (s : MulStorage)
    (h1 : s.input1.shape = s.outputGrad.shape)
    (h2 : bcastOk s.input2.shape s.input1.shape = true)
    (hg1 : s.input1Grad.shape = s.input1.shape)
    (hg2 : s.input2Grad.shape = s.input2.shape) :
    (mulBackwardRun s).result = Except.ok () ∧
    (s.req1 = true → ∀ i, validIdx s.input1.shape i = true →
      (mulBackwardRun s).store.input1Grad.data i
        = s.input1Grad.data i +
            s.input2.data (bcastIdx s.input2.shape s.input1.shape i) * s.outputGrad.data i) ∧
    (s.req2 = true → ∀ j, validIdx s.input2.shape j = true →
      (mulBackwardRun s).store.input2Grad.data j
        = s.input2Grad.data j +
            (((allIndices s.input1.shape).filter
                (fun i => decide (bcastIdx s.input2.shape s.input1.shape i = j))).map
              (fun i => s.input1.data i * s.outputGrad.data i)).sum) := by
  have h3 : bcastOk s.input2.shape s.outputGrad.shape = true := h1 ▸ h2
  unfold mulBackwardRun
  rw [if_pos h1, if_pos h2, if_pos h3]
  refine ⟨rfl, ?_, ?_⟩
  · intro hr i _
    simp [hr, mulBwdGrad1, hg1]
  · intro hr j _
    simp only [hr, if_true]
    show (mulBwdGrad2 s).data j = _
    unfold mulBwdGrad2
    simp only [hg2]
    exact foldl_update_add (fun i => bcastIdx s.input2.shape s.input1.shape i)
      (fun i => s.input1.data i * s.outputGrad.data i) (allIndices s.input1.shape)
      s.input2Grad.data j

/-- Concrete storage used to witness the MulBackward theorems: input1 and the
output gradient of shape [2], input2 of shape [1], both gradients required. -/
def mulStoreW : MulStorage :=
  ⟨⟨[2], fun _ => 3⟩, ⟨[1], fun _ => 2⟩, ⟨[2], fun _ => 5⟩,
   ⟨[2], fun _ => 0⟩, ⟨[1], fun _ => 7⟩, true, true⟩

/-- Witness for C1 at a concrete storage. -/
theorem c1_mulBackward_grad_accumulation_witness :
    (mulStoreW.input1.shape = mulStoreW.outputGrad.shape) ∧
    (bcastOk mulStoreW.input2.shape mulStoreW.input1.shape = true) ∧
    (mulStoreW.input1Grad.shape = mulStoreW.input1.shape) ∧
    (mulStoreW.input2Grad.shape = mulStoreW.input2.shape) ∧
    ((mulBackwardRun mulStoreW).result = Except.ok () ∧
     (mulStoreW.req1 = true → ∀ i, validIdx mulStoreW.input1.shape i = true →
       (mulBackwardRun mulStoreW).store.input1Grad.data i
         = mulStoreW.input1Grad.data i +
             mulStoreW.input2.data (bcastIdx mulStoreW.input2.shape mulStoreW.input1.shape i) *
               mulStoreW.outputGrad.data i) ∧
     (mulStoreW.req2 = true → ∀ j, validIdx mulStoreW.input2.shape j = true →
       (mulBackwardRun mulStoreW).store.input2Grad.data j
         = mulStoreW.input2Grad.data j +
             (((allIndices mulStoreW.input1.shape).filter
                 (fun i => decide (bcastIdx mulStoreW.input2.shape mulStoreW.input1.shape i = j))).map
               (fun i => mulStoreW.input1.data i * mulStoreW.outputGrad.data i)).sum)) :=
  ⟨rfl, by decide, rfl, rfl,
    c1_mulBackward_grad_accumulation mulStoreW rfl (by decide) rfl rfl⟩

/-- C4: whenever input1's shape differs from the output (gradient) shape or
input2 is not broadcastable to it, MulForward and MulBackward return a
PassError carrying the pass's name, and leave the storage untouched. -/
theorem c4_pass_shape_errors (sf : MulFwdStorage) (sb : MulStorage) :
    (sf.input1.shape ≠ sf.output.shape ∨ bcastOk sf.input2.shape sf.output.shape = false →
      ∃ m, (mulForwardRun sf).result = Except.error ⟨"MulForward", m⟩ ∧
        (mulForwardRun sf).store = sf) ∧
    (sb.input1.shape ≠ sb.outputGrad.shape ∨ bcastOk sb.input2.shape sb.outputGrad.shape = false →
      ∃ m, (mulBackwardRun sb).result = Except.error ⟨"MulBackward", m⟩ ∧
        (mulBackwardRun sb).store = sb) := by
  constructor
  · intro h
    by_cases he : sf.input1.shape = sf.output.shape
    · have hb : bcastOk sf.input2.shape sf.output.shape = false := by
        rcases h with h | h
        · exact absurd he h
        · exact h
      have hb1 : bcastOk sf.input2.shape sf.input1.shape = false := by rw [he]; exact hb
      unfold mulForwardRun
      rw [if_pos he, if_neg (by simp [hb1])]
      exact ⟨_, rfl, rfl⟩
    · unfold mulForwardRun
      rw [if_neg he]
      exact ⟨_, rfl, rfl⟩
  · intro h
    by_cases he : sb.input1.shape = sb.outputGrad.shape
    · have hb : bcastOk sb.input2.shape sb.outputGrad.shape = false := by
        rcases h with h | h
        · exact absurd he h
        · exact h
      have hb1 : bcastOk sb.input2.shape sb.input1.shape = false := by rw [he]; exact hb
      unfold mulBackwardRun
      rw [if_pos he, if_neg (by simp [hb1])]
      exact ⟨_, rfl, rfl⟩
    · unfold mulBackwardRun
      rw [if_neg he]
      exact ⟨_, rfl, rfl⟩

/-- Concrete forward storage with mismatched shapes for the C4 witness. -/
def mulFwdW : MulFwdStorage :=
  ⟨⟨[2], fun _ => 0⟩, ⟨[2], fun _ => 0⟩, ⟨[3], fun _ => 0⟩⟩

/-- Concrete backward storage with mismatched shapes for the C4 witness. -/
def mulBwdW : MulStorage :=
  ⟨⟨[2], fun _ => 0⟩, ⟨[2], fun _ => 0⟩, ⟨[3], fun _ => 0⟩,
   ⟨[2], fun _ => 0⟩, ⟨[2], fun _ => 0⟩, true, true⟩

/-- Witness for C4 at concrete mismatched storages. -/
theorem c4_pass_shape_errors_witness :
    ((mulFwdW.input1.shape ≠ mulFwdW.output.shape ∨
        bcastOk mulFwdW.input2.shape mulFwdW.output.shape = false) ∧
      ∃ m, (mulForwardRun mulFwdW).result = Except.error ⟨"MulForward", m⟩ ∧
        (mulForwardRun mulFwdW).store = mulFwdW) ∧
    ((mulBwdW.input1.shape ≠ mulBwdW.outputGrad.shape ∨
        bcastOk mulBwdW.input2.shape mulBwdW.outputGrad.shape = false) ∧
      ∃ m, (mulBackwardRun mulBwdW).result = Except.error ⟨"MulBackward", m⟩ ∧
        (mulBackwardRun mulBwdW).store = mulBwdW) :=
  ⟨⟨Or.inl (by decide), (c4_pass_shape_errors mulFwdW mulBwdW).1 (Or.inl (by decide))⟩,
   ⟨Or.inl (by decide), (c4_pass_shape_errors mulFwdW mulBwdW).2 (Or.inl (by decide))⟩⟩

/-- C5: when Storage reports an input's gradient not required, MulBackward
neither fetches that gradient's DataID nor modifies its buffer. -/
theorem c5_not_required_not_touched (s : MulStorage) :
    (s.req1 = false →
      MulDataID.grad1 ∉ (mulBackwardRun s).fetched ∧
      (mulBackwardRun s).store.input1Grad = s.input1Grad) ∧
    (s.req2 = false →
      MulDataID.grad2 ∉ (mulBackwardRun s).fetched ∧
      (mulBackwardRun s).store.input2Grad = s.input2Grad) := by
  constructor
  · intro hr
    unfold mulBackwardRun
    simp only [hr, Bool.false_eq_true, if_false]
    split_ifs with h1 h2 h3 <;>
      refine ⟨?_, rfl⟩ <;>
      cases hb : s.req2 <;> simp [hb]
  · intro hr
    unfold mulBackwardRun
    simp only [hr, Bool.false_eq_true, if_false]
    split_ifs with h1 h2 h3 <;>
      refine ⟨?_, rfl⟩ <;>
      cases hb : s.req1 <;> simp [hb]

/-- Concrete storage with neither gradient required for the C5 witness. -/
def mulStoreNoReq : MulStorage :=
  ⟨⟨[2], fun _ => 3⟩, ⟨[1], fun _ => 2⟩, ⟨[2], fun _ => 5⟩,
   ⟨[2], fun _ => 0⟩, ⟨[1], fun _ => 7⟩, false, false⟩

/-- Witness for C5 at a concrete storage requiring neither gradient. -/
theorem c5_not_required_not_touched_witness :
    (mulStoreNoReq.req1 = false ∧
      (MulDataID.grad1 ∉ (mulBackwardRun mulStoreNoReq).fetched ∧
       (mulBackwardRun mulStoreNoReq).store.input1Grad = mulStoreNoReq.input1Grad)) ∧
    (mulStoreNoReq.req2 = false ∧
      (MulDataID.grad2 ∉ (mulBackwardRun mulStoreNoReq).fetched ∧
       (mulBackwardRun mulStoreNoReq).store.input2Grad = mulStoreNoReq.input2Grad)) :=
  ⟨⟨rfl, (c5_not_required_not_touched mulStoreNoReq).1 rfl⟩,
   ⟨rfl, (c5_not_required_not_touched mulStoreNoReq).2 rfl⟩⟩

/-- The failure numeric_test raises when a failure budget is exceeded: the
spec's NumericCheckFailure (in the source the assert macro aborts the call,
carrying the failure counts in its message). -/
structure NumericCheckFailure where
  msg : String
deriving DecidableEq

/-- The per-trial failure test of numeric_test (src/src/ops/numeric_check.rs
lines 77-78): a trial counts against the budget when its relative error
exceeds the tolerance or is NaN (a NaN f32 is modelled as none; an error value
is otherwise an exact rational). -/
def exceedsTol (tolerance : ℚ) : Option ℚ → Bool
  | none => true
  | some e => decide (e > tolerance)

/-- Embedding of numeric_test (src/src/ops/numeric_check.rs lines 66-85).  The
trials list holds the (param_err, input_err) pair each of the iters iterations
produced (the random sampling inside numeric_error is abstracted into these
given outcomes).  The failures of each series are counted and the call succeeds
only when both counts stay within the failures budget; the parameter-series
assertion is checked first, as in the source. -/
def numeric_test (failures : Nat) (tolerance : ℚ)
    (trials : List (Option ℚ × Option ℚ)) : Except NumericCheckFailure Unit :=
  let param_count := (trials.filter (fun t => exceedsTol tolerance t.1)).length
  let input_count := (trials.filter (fun t => exceedsTol tolerance t.2)).length
  if param_count ≤ failures then
    if input_count ≤ failures then Except.ok ()
    else Except.error ⟨"input error failures"⟩
  else Except.error ⟨"param error failures"⟩

/-- C3: numeric_test declares the gradient correct (returns ok) exactly when,
for the parameter-error series and the input-error series separately, the
count of trials whose relative error exceeds the tolerance or is non-finite is
at most the failures budget; otherwise the call fails with a
NumericCheckFailure. -/
theorem c3_numeric_test_budget (failures : Nat) (tolerance : ℚ)
    (trials : List (Option ℚ × Option ℚ)) :
    (numeric_test failures tolerance trials = Except.ok () ↔
      ((trials.filter (fun t => t.1.elim true (fun e => decide (tolerance < e)))).length ≤ failures ∧
       (trials.filter (fun t => t.2.elim true (fun e => decide (tolerance < e)))).length ≤ failures)) ∧
    ((∃ failure, numeric_test failures tolerance trials = Except.error failure) ↔
      ¬ ((trials.filter (fun t => t.1.elim true (fun e => decide (tolerance < e)))).length ≤ failures ∧
         (trials.filter (fun t => t.2.elim true (fun e => decide (tolerance < e)))).length ≤ failures)) := by
  have e1 : trials.filter (fun t => exceedsTol tolerance t.1)
      = trials.filter (fun t => t.1.elim true (fun e => decide (tolerance < e))) :=
    List.filter_congr (fun t _ => by rcases t with ⟨a, b⟩; cases a <;> rfl)
  have e2 : trials.filter (fun t => exceedsTol tolerance t.2)
      = trials.filter (fun t => t.2.elim true (fun e => decide (tolerance < e))) :=
    List.filter_congr (fun t _ => by rcases t with ⟨a, b⟩; cases b <;> rfl)
  unfold numeric_test
  rw [e1, e2]
  dsimp only
  split_ifs with h1 h2
  · simp [h1, h2]
  · simp [h1, h2]
  · simp [h1]

/-- Node tags from the id module; the numeric harness only inspects Parameter. -/
inductive GraphNodeTag where
  | Parameter
  | NamedTag (s : String)
deriving DecidableEq

/-- A graph node as numeric_error sees it: the producing passes that
Dependencies reports for its value DataID, and the node's tags.  Modelled from
the spec: the graph module with Dependencies::data_inputs (the PassIDs writing
a DataID) is not under src/; the spec (section 4.2) specifies data_inputs as
the producer list used to classify leaf data. -/
structure HarnessNode where
  valueProducers : List Nat
  tags : List GraphNodeTag
deriving DecidableEq

/-- Embedding of the input classification of numeric_error
(src/src/ops/numeric_check.rs line 94): keep the nodes whose value DataID has
no producing pass and that do not carry the Parameter tag. -/
def input_ids (nodes : List HarnessNode) : List HarnessNode :=
  nodes.filter (fun n =>
    n.valueProducers.length == 0 && !(n.tags.contains GraphNodeTag.Parameter))

/-- Embedding of the parameter classification of numeric_error
(src/src/ops/numeric_check.rs line 95): keep the nodes whose value DataID has
no producing pass and that carry the Parameter tag. -/
def parameter_ids (nodes : List HarnessNode) : List HarnessNode :=
  nodes.filter (fun n =>
    n.valueProducers.length == 0 && n.tags.contains GraphNodeTag.Parameter)

/-- C7: numeric_error classifies a node as a parameter exactly when its value
has zero producing passes and it carries the Parameter tag, as an input
exactly when its value has zero producing passes and it does not carry the
tag, and places any node with a producing pass in neither set. -/
theorem c7_leaf_classification (nodes : List HarnessNode) (n : HarnessNode) :
    (n ∈ parameter_ids nodes ↔
      n ∈ nodes ∧ n.valueProducers = [] ∧ GraphNodeTag.Parameter ∈ n.tags) ∧
    (n ∈ input_ids nodes ↔
      n ∈ nodes ∧ n.valueProducers = [] ∧ GraphNodeTag.Parameter ∉ n.tags) ∧
    (n.valueProducers ≠ [] → n ∉ parameter_ids nodes ∧ n ∉ input_ids nodes) := by
  refine ⟨?_, ?_, ?_⟩
  · simp [parameter_ids, List.mem_filter, List.length_eq_zero, and_assoc]
  · simp [input_ids, List.mem_filter, List.length_eq_zero, and_assoc]
  · intro h
    constructor
    · simp [parameter_ids, List.mem_filter, List.length_eq_zero, h]
    · simp [input_ids, List.mem_filter, List.length_eq_zero, h]

/-- A producerless Parameter-tagged node for the C7 witness. -/
def paramNodeW : HarnessNode := ⟨[], [GraphNodeTag.Parameter]⟩

/-- A producerless untagged node for the C7 witness. -/
def inputNodeW : HarnessNode := ⟨[], [GraphNodeTag.NamedTag "x"]⟩

/-- A node with one producing pass for the C7 witness. -/
def producedNodeW : HarnessNode := ⟨[0], []⟩

/-- Witness for C7 at a concrete three-node graph. -/
theorem c7_leaf_classification_witness :
    paramNodeW ∈ parameter_ids [paramNodeW, inputNodeW, producedNodeW] ∧
    inputNodeW ∈ input_ids [paramNodeW, inputNodeW, producedNodeW] ∧
    (producedNodeW.valueProducers ≠ [] ∧
      producedNodeW ∉ parameter_ids [paramNodeW, inputNodeW, producedNodeW] ∧
      producedNodeW ∉ input_ids [paramNodeW, inputNodeW, producedNodeW]) :=
  ⟨(c7_leaf_classification [paramNodeW, inputNodeW, producedNodeW] paramNodeW).1.mpr (by decide),
   (c7_leaf_classification [paramNodeW, inputNodeW, producedNodeW] inputNodeW).2.1.mpr (by decide),
   by decide,
   (c7_leaf_classification [paramNodeW, inputNodeW, producedNodeW] producedNodeW).2.2 (by decide)⟩

/-- Embedding of the gradient square-norm accumulation of step
(src/src/ops/numeric_check.rs lines 45-47): per listed node, fold acc + d*d
over that node's gradient buffer, then sum across the nodes.  The results map
lookup is embedded by passing the gradients as a list aligned with the nodes. -/
def grad_dot (grads : List (List ℝ)) : ℝ :=
  (grads.map (fun g => g.foldl (fun acc d => acc + d * d) 0)).sum

/-- Embedding of ndarray scaled_add: data gains c times grad elementwise. -/
def scaled_add (data : List ℝ) (c : ℝ) (grad : List ℝ) : List ℝ :=
  List.zipWith (fun x g => x + c * g) data grad

/-- Embedding of step (src/src/ops/numeric_check.rs lines 44-64): from the
baseline data of the listed nodes and their gradients, produce the point
stepped by -step_size over the gradient norm along the gradient, the point
stepped by +step_size over the norm, and the norm itself. -/
noncomputable def step (step_size : ℝ) (data grads : List (List ℝ)) :
    List (List ℝ) × List (List ℝ) × ℝ :=
  let gd := grad_dot grads
  ((List.zip data grads).map (fun p => scaled_add p.1 (-step_size / Real.sqrt gd) p.2),
   (List.zip data grads).map (fun p => scaled_add p.1 (step_size / Real.sqrt gd) p.2),
   Real.sqrt gd)

/-- Embedding of one branch of numeric_error (src/src/ops/numeric_check.rs
lines 110-124 for parameters, 127-141 for inputs; the two are identical in the
varied node set).  Executing the subgraph at the perturbed points is abstracted
as the loss function (the execution engine is not under src/); data_0 and grads
are the baseline values and baseline gradients of the varied nodes.  When the
node set is empty the branch is skipped and the error stays 0. -/
noncomputable def numeric_error_branch (loss : List (List ℝ) → ℝ) (step_size : ℝ)
    (data_0 grads : List (List ℝ)) : ℝ :=
  if 0 < data_0.length then
    let r := step step_size data_0 grads
    let loss_1 := loss r.1
    let loss_2 := loss r.2.1
    let expected_diff := 2 * step_size * r.2.2
    let diff := loss_2 - loss_1
    let err := expected_diff - diff
    |err| / max |diff| |expected_diff|
  else 0

/-- Folding acc + d*d from a starting value adds the sum of squares. -/
theorem foldl_add_sq (g : List ℝ) :
    ∀ a : ℝ, g.foldl (fun acc d => acc + d * d) a = a + (g.map (fun d => d * d)).sum := by
  induction g with
  | nil => intro a; simp
  | cons x t ih =>
      intro a
      rw [List.foldl_cons, ih]
      simp [add_assoc]

/-- C2: with a nonempty varied-node set and a nonzero baseline gradient, the
norm step divides by is the L2 norm of all the listed nodes' gradients taken
together, the two perturbed points are data minus and plus
(step_size over the norm) times the gradient, and the reported relative error
is the absolute difference of the expected change 2 * step_size * norm and the
observed change (loss at the positive step minus loss at the negative step),
divided by the larger magnitude of the two. -/
theorem c2_numeric_error_step (loss : List (List ℝ) → ℝ) (step_size : ℝ)
    (data_0 grads : List (List ℝ))
    (hne : data_0 ≠ []) (hg : grad_dot grads ≠ 0) :
    grad_dot grads = (grads.map (fun g => (g.map (fun d => d * d)).sum)).sum ∧
    (step step_size data_0 grads).1
      = (List.zip data_0 grads).map (fun p =>
          List.zipWith (fun x g => x - step_size / Real.sqrt (grad_dot grads) * g) p.1 p.2) ∧
    (step step_size data_0 grads).2.1
      = (List.zip data_0 grads).map (fun p =>
          List.zipWith (fun x g => x + step_size / Real.sqrt (grad_dot grads) * g) p.1 p.2) ∧
    numeric_error_branch loss step_size data_0 grads
      = |2 * step_size * Real.sqrt (grad_dot grads)
            - (loss (step step_size data_0 grads).2.1 - loss (step step_size data_0 grads).1)| /
          max |loss (step step_size data_0 grads).2.1 - loss (step step_size data_0 grads).1|
            |2 * step_size * Real.sqrt (grad_dot grads)| := by
  refine ⟨?_, ?_, ?_, ?_⟩
  · unfold grad_dot
    congr 1
    exact List.map_congr_left (fun g _ => by rw [foldl_add_sq, zero_add])
  · have hfun : (fun (x g : ℝ) => x + -step_size / Real.sqrt (grad_dot grads) * g)
        = fun x g => x - step_size / Real.sqrt (grad_dot grads) * g := by
      funext x g; ring
    simp only [step, scaled_add]
    rw [hfun]
  · simp only [step, scaled_add]
  · have hl : 0 < data_0.length := List.length_pos.mpr hne
    simp only [numeric_error_branch, if_pos hl]
    rfl

/-- Concrete loss function for the C2 witness. -/
noncomputable def lossW : List (List ℝ) → ℝ := fun _ => 0

/-- Concrete baseline data for the C2 witness. -/
def dataW : List (List ℝ) := [[2]]

/-- Concrete baseline gradients for the C2 witness. -/
def gradsW : List (List ℝ) := [[1]]

/-- Witness for C2 at a one-node, one-element instance. -/
theorem c2_numeric_error_step_witness :
    (dataW ≠ []) ∧ (grad_dot gradsW ≠ 0) ∧
    (grad_dot gradsW = (gradsW.map (fun g => (g.map (fun d => d * d)).sum)).sum ∧
     (step 1 dataW gradsW).1
       = (List.zip dataW gradsW).map (fun p =>
           List.zipWith (fun x g => x - 1 / Real.sqrt (grad_dot gradsW) * g) p.1 p.2) ∧
     (step 1 dataW gradsW).2.1
       = (List.zip dataW gradsW).map (fun p =>
           List.zipWith (fun x g => x + 1 / Real.sqrt (grad_dot gradsW) * g) p.1 p.2) ∧
     numeric_error_branch lossW 1 dataW gradsW
       = |2 * 1 * Real.sqrt (grad_dot gradsW)
             - (lossW (step 1 dataW gradsW).2.1 - lossW (step 1 dataW gradsW).1)| /
           max |lossW (step 1 dataW gradsW).2.1 - lossW (step 1 dataW gradsW).1|
             |2 * 1 * Real.sqrt (grad_dot gradsW)|) :=
  ⟨by simp [dataW], by norm_num [gradsW, grad_dot],
   c2_numeric_error_step lossW 1 dataW gradsW (by simp [dataW]) (by norm_num [gradsW, grad_dot])⟩

/-- Embedding of normal_fill (src/src/ops/numeric_check.rs lines 8-17): the
rand crate's Normal distribution produces mean + std_dev * z for a standard
normal draw z, so the thread rng is modelled as the list of standard draws it
supplies and the fill maps them through that affine transform. -/
def normal_fill (draws : List ℝ) (mean std_dev : ℝ) : List ℝ :=
  draws.map (fun z => mean + std_dev * z)

/-- A leaf node as generate_input_data sees it: the caller's per-node override
distribution when one is registered (modelled by the value sequence the
override function returns for this buffer), and the standard normal draws the
thread rng would supply for its buffer. -/
structure FillNode where
  override : Option (List ℝ)
  draws : List ℝ

/-- Embedding of generate_input_data (src/src/ops/numeric_check.rs lines
25-41): fill each listed node from its override when present, and otherwise by
normal_fill with mean 0 and the default_variance argument passed as the
distribution's std_dev parameter. -/
def generate_input_data (node_ids : List FillNode) (default_variance : ℝ) : List (List ℝ) :=
  node_ids.map (fun n =>
    match n.override with
    | some vals => vals
    | none => normal_fill n.draws 0 default_variance)

/-- The claim's reading of generate_input_data, stated from the spec's words
for comparison: the default fill should sample a zero-mean normal whose
VARIANCE is default_variance, hence standard deviation sqrt default_variance. -/
noncomputable def generate_input_data_claim (node_ids : List FillNode)
    (default_variance : ℝ) : List (List ℝ) :=
  node_ids.map (fun n =>
    match n.override with
    | some vals => vals
    | none => n.draws.map (fun z => 0 + Real.sqrt default_variance * z))

/-- C8 counterexample: with default_variance 4 and a single standard draw 1,
the code fills 4 (std dev 4) where a variance-4 normal would fill 2, so the
default distribution's variance is not default_variance. -/
theorem c8_counterexample_variance :
    generate_input_data [⟨none, [1]⟩] 4 ≠ generate_input_data_claim [⟨none, [1]⟩] 4 := by
  have h : Real.sqrt 4 = 2 := by
    rw [show (4:ℝ) = 2 ^ 2 by norm_num, Real.sqrt_sq (by norm_num : (0:ℝ) ≤ 2)]
  simp only [generate_input_data, generate_input_data_claim, normal_fill, h,
    List.map_cons, List.map_nil]
  intro hcontra
  have h2 := List.head_eq_of_cons_eq hcontra
  have h3 := List.head_eq_of_cons_eq h2
  norm_num at h3

/-- C8 amended: generate_input_data fills each listed node from its override
when present, and otherwise with zero-mean normal samples whose standard
deviation (not variance) is the default_variance argument: each filled value
is default_variance times a standard normal draw. -/
theorem c8_generate_input_data_fill (node_ids : List FillNode) (default_variance : ℝ) :
    generate_input_data node_ids default_variance
      = node_ids.map (fun n =>
          match n.override with
          | some vals => vals
          | none => n.draws.map (fun z => default_variance * z)) := by
  unfold generate_input_data
  refine List.map_congr_left (fun n _ => ?_)
  cases h : n.override with
  | some vals => rfl
  | none => simp [normal_fill]

/-- A dimension of the older shape system used by the Broadcast op: fixed,
unconstrained, or a bounded range.  Modelled from the spec (section 3,
NodeShape/NodeDim): the shape module itself is not under src/. -/
inductive ODim where
  | Known (n : Nat)
  | Unknown
  | Range (lo hi : Nat)
deriving DecidableEq

/-- The older shape type Broadcast reads: a channel dimension plus the
remaining dimensions.  Modelled from the spec: only the channels field and the
two helper calls below are exercised by src/src/ops/broadcast.rs. -/
structure OldShape where
  channels : Nat
  dims : List ODim
deriving DecidableEq

/-- Modelled from the spec: force_flat_size yields the fixed flat size (the
product of the channel dimension and every further dimension) when every
dimension is Known, and fails (none) otherwise. -/
def OldShape.force_flat_size (s : OldShape) : Option Nat :=
  s.dims.foldl
    (fun acc d =>
      match acc, d with
      | some n, ODim.Known k => some (n * k)
      | _, _ => none)
    (some s.channels)

/-- Modelled from the spec collapse-to-minimum: each ranged dimension resolves
to its minimal admissible value and a dimension that cannot resolve to Known
makes the collapse fail. -/
def collapseDim : ODim → Except String ODim
  | ODim.Known n => Except.ok (ODim.Known n)
  | ODim.Range lo _ => Except.ok (ODim.Known lo)
  | ODim.Unknown => Except.error "could not be collapsed to a fixed shape"

/-- Collapse every dimension of a list, propagating the first failure. -/
def collapseDims : List ODim → Except String (List ODim)
  | [] => Except.ok []
  | d :: ds =>
      match collapseDim d, collapseDims ds with
      | Except.ok d2, Except.ok rest => Except.ok (d2 :: rest)
      | Except.error e, _ => Except.error e
      | _, Except.error e => Except.error e

/-- Modelled from the spec: collapse_ranges_to_minimum collapses every
dimension of the shape to its minimum, keeping the channel dimension. -/
def OldShape.collapse_ranges_to_minimum (s : OldShape) : Except String OldShape :=
  match collapseDims s.dims with
  | Except.ok ds => Except.ok ⟨s.channels, ds⟩
  | Except.error e => Except.error e

/-- The graph record Broadcast::new builds (src/src/ops/broadcast.rs lines
9-28): the op name, the build-time input and output shapes of its nodes, and
the recorded output channel count. -/
structure BroadcastOp where
  name : String
  inputShape : OldShape
  outputShape : OldShape
  output_channels : Nat
deriving DecidableEq

/-- Embedding of Broadcast::new (src/src/ops/broadcast.rs lines 17-28): the
expect/assert panics become errors; the op is built only when the input shape
has a fixed flat size equal to the output node's channel dimension. -/
def Broadcast.new (inputShape outputShape : OldShape) (nm : String) :
    Except String BroadcastOp :=
  match inputShape.force_flat_size with
  | none => Except.error "Broadcast Operation requires an input node with a fixed shape"
  | some fs =>
      if outputShape.channels = fs then
        Except.ok ⟨nm, inputShape, outputShape, outputShape.channels⟩
      else
        Except.error "Broadcast Operation output node shape channel dimension must be equal to the input node flat size"

/-- Embedding of Broadcast::propagate_shape_constraints
(src/src/ops/broadcast.rs lines 35-46): collapse the input node's current
shape to minimum (panicking on failure), then re-assert that the build-time
input shape's flat size still equals the recorded output channel count and
that the output node's channel dimension is unchanged; on success the
collapsed shape is stored back unmodified. -/
def BroadcastOp.propagate_shape_constraints (op : BroadcastOp) (cur : OldShape) :
    Except String OldShape :=
  match cur.collapse_ranges_to_minimum with
  | Except.error e => Except.error e
  | Except.ok collapsed =>
      match op.inputShape.force_flat_size with
      | none => Except.error "Broadcast Operation requires an input node with a fixed shape"
      | some fs =>
          if op.output_channels = fs then
            if op.outputShape.channels = op.output_channels then Except.ok collapsed
            else Except.error "Broadcast Operation output node shape channel has changed"
          else Except.error "Broadcast Operation input node flat size has changed"

/-- C6: building a Broadcast op succeeds exactly when the input shape has a
fixed flat size equal to the output channel dimension, its shape propagation
succeeds exactly when the current input shape collapses and the recorded
sizes still agree, and a successful propagation returns exactly the collapsed
shape (never a truncated or padded one). -/
theorem c6_broadcast_shape_guard (inS outS : OldShape) (nm : String)
    (op : BroadcastOp) (cur : OldShape) :
    ((∃ b, Broadcast.new inS outS nm = Except.ok b) ↔
       inS.force_flat_size = some outS.channels) ∧
    ((∃ collapsed, op.propagate_shape_constraints cur = Except.ok collapsed) ↔
       ((∃ c, cur.collapse_ranges_to_minimum = Except.ok c) ∧
        op.inputShape.force_flat_size = some op.output_channels ∧
        op.outputShape.channels = op.output_channels)) ∧
    (∀ r, op.propagate_shape_constraints cur = Except.ok r →
       cur.collapse_ranges_to_minimum = Except.ok r) := by
  refine ⟨?_, ?_, ?_⟩
  · unfold Broadcast.new
    cases h : inS.force_flat_size with
    | none => simp [h]
    | some fs =>
        simp only [h]
        split_ifs with hc
        · simp [hc]
        · simp only [Option.some.injEq]
          constructor
          · rintro ⟨b, hb⟩
            exact absurd hb (by simp)
          · intro hh
            exact absurd hh.symm hc
  · unfold BroadcastOp.propagate_shape_constraints
    cases hcol : cur.collapse_ranges_to_minimum with
    | error e => simp [hcol]
    | ok c =>
        cases hffs : op.inputShape.force_flat_size with
        | none => simp [hffs]
        | some fs =>
            dsimp only
            split_ifs with h1 h2
            · simp [h1, h2]
            · simp only [Option.some.injEq]
              constructor
              · rintro ⟨collapsed, hcon⟩
                exact absurd hcon (by simp)
              · rintro ⟨_, _, hch⟩
                exact absurd hch h2
            · simp only [Option.some.injEq]
              constructor
              · rintro ⟨collapsed, hcon⟩
                exact absurd hcon (by simp)
              · rintro ⟨_, hfs, _⟩
                exact absurd hfs.symm h1
  · intro r hr
    unfold BroadcastOp.propagate_shape_constraints at hr
    cases hcol : cur.collapse_ranges_to_minimum with
    | error e => rw [hcol] at hr; exact absurd hr (by simp)
    | ok c =>
        rw [hcol] at hr
        cases hffs : op.inputShape.force_flat_size with
        | none => rw [hffs] at hr; exact absurd hr (by simp)
        | some fs =>
            rw [hffs] at hr
            dsimp only at hr
            split_ifs at hr with h1 h2
            · injection hr with hcr
              rw [hcr]

/-- Witness for C6: a fixed-size input of flat size 8 builds against an
8-channel output, and propagation collapses a ranged current shape. -/
theorem c6_broadcast_shape_guard_witness :
    (∃ b, Broadcast.new ⟨4, [ODim.Known 2]⟩ ⟨8, [ODim.Unknown]⟩ "b" = Except.ok b) ∧
    (∃ collapsed,
      BroadcastOp.propagate_shape_constraints
        ⟨"b", ⟨4, [ODim.Known 2]⟩, ⟨8, [ODim.Unknown]⟩, 8⟩ ⟨4, [ODim.Range 2 5]⟩
        = Except.ok collapsed) ∧
    (BroadcastOp.propagate_shape_constraints
        ⟨"b", ⟨4, [ODim.Known 2]⟩, ⟨8, [ODim.Unknown]⟩, 8⟩ ⟨4, [ODim.Range 2 5]⟩
        = Except.ok ⟨4, [ODim.Known 2]⟩ →
      OldShape.collapse_ranges_to_minimum ⟨4, [ODim.Range 2 5]⟩
        = Except.ok ⟨4, [ODim.Known 2]⟩) :=
  ⟨(c6_broadcast_shape_guard ⟨4, [ODim.Known 2]⟩ ⟨8, [ODim.Unknown]⟩ "b"
      ⟨"b", ⟨4, [ODim.Known 2]⟩, ⟨8, [ODim.Unknown]⟩, 8⟩ ⟨4, [ODim.Range 2 5]⟩).1.mpr rfl,
   (c6_broadcast_shape_guard ⟨4, [ODim.Known 2]⟩ ⟨8, [ODim.Unknown]⟩ "b"
      ⟨"b", ⟨4, [ODim.Known 2]⟩, ⟨8, [ODim.Unknown]⟩, 8⟩ ⟨4, [ODim.Range 2 5]⟩).2.1.mpr
     ⟨⟨⟨4, [ODim.Known 2]⟩, rfl⟩, rfl, rfl⟩,
   (c6_broadcast_shape_guard ⟨4, [ODim.Known 2]⟩ ⟨8, [ODim.Unknown]⟩ "b"
      ⟨"b", ⟨4, [ODim.Known 2]⟩, ⟨8, [ODim.Unknown]⟩, 8⟩ ⟨4, [ODim.Range 2 5]⟩).2.2
     ⟨4, [ODim.Known 2]⟩⟩

/-- A dimension constraint of the newer shape system used by MulInstance:
Known, Unknown, or a bounded interval.  The variants follow the spec
(section 3, NodeShape/NodeDim); the shape module is not under src/. -/
inductive NodeDim where
  | Known (n : Nat)
  | Unknown
  | Interval (lo hi : Nat)
deriving DecidableEq

/-- Modelled from the spec merge rule (section 4.1): Known values must be
equal, Unknown absorbs, an interval accepts contained Known values, and
intervals intersect with an empty intersection failing. -/
def NodeDim.merge : NodeDim → NodeDim → Except String NodeDim
  | NodeDim.Known a, NodeDim.Known b =>
      if a = b then Except.ok (NodeDim.Known a) else Except.error "merge conflict"
  | NodeDim.Known a, NodeDim.Unknown => Except.ok (NodeDim.Known a)
  | NodeDim.Unknown, NodeDim.Known b => Except.ok (NodeDim.Known b)
  | NodeDim.Unknown, NodeDim.Unknown => Except.ok NodeDim.Unknown
  | NodeDim.Known a, NodeDim.Interval lo hi =>
      if lo ≤ a ∧ a ≤ hi then Except.ok (NodeDim.Known a) else Except.error "merge conflict"
  | NodeDim.Interval lo hi, NodeDim.Known a =>
      if lo ≤ a ∧ a ≤ hi then Except.ok (NodeDim.Known a) else Except.error "merge conflict"
  | NodeDim.Interval l1 h1, NodeDim.Interval l2 h2 =>
      if max l1 l2 ≤ min h1 h2 then Except.ok (NodeDim.Interval (max l1 l2) (min h1 h2))
      else Except.error "merge conflict"
  | NodeDim.Unknown, NodeDim.Interval lo hi => Except.ok (NodeDim.Interval lo hi)
  | NodeDim.Interval lo hi, NodeDim.Unknown => Except.ok (NodeDim.Interval lo hi)

/-- A shape of the newer system: the list of its dimension constraints. -/
structure NodeShape where
  dims : List NodeDim
deriving DecidableEq

/-- Merge two dimension lists pairwise, failing on the first conflict or on a
rank mismatch; modelled from the spec (merging is valid only if every
dimension pair is compatible). -/
def mergeDims : List NodeDim → List NodeDim → Except String (List NodeDim)
  | [], [] => Except.ok []
  | a :: la, b :: lb =>
      match NodeDim.merge a b, mergeDims la lb with
      | Except.ok d, Except.ok rest => Except.ok (d :: rest)
      | Except.error e, _ => Except.error e
      | _, Except.error e => Except.error e
  | _, _ => Except.error "rank mismatch"

/-- Shape merge over the dimension lists. -/
def NodeShape.merge (a b : NodeShape) : Except String NodeShape :=
  match mergeDims a.dims b.dims with
  | Except.ok ds => Except.ok ⟨ds⟩
  | Except.error e => Except.error e

/-- The per-dimension map of MulInstance::propagate_shape_constraints
(src/src/ops/math/mul.rs lines 92-98): Known(1) becomes Unknown, Known(x)
stays, and any other constraint hits the unreachable branch (none). -/
def mapMulDim : NodeDim → Option NodeDim
  | NodeDim.Known 1 => some NodeDim.Unknown
  | NodeDim.Known x => some (NodeDim.Known x)
  | _ => none

/-- The iterator over input2's dimensions collected into the candidate output
shape, propagating the panic of the first non-Known dimension. -/
def mapMulDims : List NodeDim → Option (List NodeDim)
  | [] => some []
  | d :: ds =>
      match mapMulDim d, mapMulDims ds with
      | some d2, some rest => some (d2 :: rest)
      | _, _ => none

/-- The three shapes MulInstance reads and writes during shape propagation. -/
structure MulShapes where
  input1 : NodeShape
  input2 : NodeShape
  output : NodeShape

/-- The outcome of MulInstance::propagate_shape_constraints: the unreachable
panic, a shape-conflict error, or the successfully merged output shape. -/
inductive PropResult where
  | panicked
  | failed (e : String)
  | ok (output : NodeShape)
deriving DecidableEq

/-- Embedding of MulInstance::propagate_shape_constraints
(src/src/ops/math/mul.rs lines 91-101): map input2's dimensions (panicking on
any non-Known one), merge the candidate with input1's shape, and merge the
result into the output node's stored shape. -/
def MulInstance.propagate_shape_constraints (sh : MulShapes) : PropResult :=
  match mapMulDims sh.input2.dims with
  | none => PropResult.panicked
  | some mapped =>
      match NodeShape.merge ⟨mapped⟩ sh.input1 with
      | Except.error e => PropResult.failed e
      | Except.ok output_shape =>
          match NodeShape.merge sh.output output_shape with
          | Except.error e => PropResult.failed e
          | Except.ok newOut => PropResult.ok newOut

/-- mapMulDim on a Known dimension never panics and sends extent 1 to Unknown. -/
theorem mapMulDim_known (n : Nat) :
    mapMulDim (NodeDim.Known n)
      = some (if NodeDim.Known n = NodeDim.Known 1 then NodeDim.Unknown else NodeDim.Known n) := by
  match n with
  | 0 => rfl
  | 1 => rfl
  | (k + 2) =>
      have : NodeDim.Known (k + 2) ≠ NodeDim.Known 1 := by
        intro h
        injection h with h2
        omega
      rw [if_neg this]
      rfl

/-- mapMulDims panics exactly when some dimension is not Known. -/
theorem mapMulDims_eq_none_iff (l : List NodeDim) :
    mapMulDims l = none ↔ ¬ (∀ d ∈ l, ∃ n, d = NodeDim.Known n) := by
  induction l with
  | nil => simp [mapMulDims]
  | cons d ds ih =>
      constructor
      · intro h hall
        rcases hall d (by simp) with ⟨n, hn⟩
        have hds : ∀ x ∈ ds, ∃ n, x = NodeDim.Known n := fun x hx => hall x (by simp [hx])
        have hsome : mapMulDims ds ≠ none := fun hc => (ih.mp hc) hds
        rcases Option.ne_none_iff_exists.mp hsome with ⟨rest, hrest⟩
        rw [mapMulDims, ← hrest, hn, mapMulDim_known] at h
        simp at h
      · intro h
        by_cases hd : ∃ n, d = NodeDim.Known n
        · rcases hd with ⟨n, hn⟩
          have hds : ¬ (∀ x ∈ ds, ∃ n, x = NodeDim.Known n) := by
            intro hall
            exact h (by
              intro x hx
              rcases List.mem_cons.mp hx with hx1 | hx2
              · exact hx1 ▸ ⟨n, hn⟩
              · exact hall x hx2)
          have : mapMulDims ds = none := ih.mpr hds
          rw [mapMulDims, this, hn, mapMulDim_known]
        · have : mapMulDim d = none := by
            cases d with
            | Known n => exact absurd ⟨n, rfl⟩ hd
            | Unknown => rfl
            | Interval lo hi => rfl
          rw [mapMulDims, this]

/-- When every dimension is Known, mapMulDims is the Known(1)-to-Unknown map. -/
theorem mapMulDims_all_known (l : List NodeDim)
    (h : ∀ d ∈ l, ∃ n, d = NodeDim.Known n) :
    mapMulDims l
      = some (l.map (fun d => if d = NodeDim.Known 1 then NodeDim.Unknown else d)) := by
  induction l with
  | nil => rfl
  | cons d ds ih =>
      rcases h d (by simp) with ⟨n, hn⟩
      have hds := ih (fun x hx => h x (by simp [hx]))
      rw [mapMulDims, hds, hn, mapMulDim_known]
      rfl

/-- C10: MulInstance's shape propagation panics (hits unreachable) exactly when
input2's shape has a non-Known dimension; when every dimension is Known it
maps each Known(1) dimension to Unknown, merges the candidate with input1's
shape, and merges the result into the output's stored shape, surfacing merge
conflicts as errors rather than panics. -/
theorem c10_mul_shape_propagation (sh : MulShapes) :
    (MulInstance.propagate_shape_constraints sh = PropResult.panicked ↔
      ¬ (∀ d ∈ sh.input2.dims, ∃ n, d = NodeDim.Known n)) ∧
    ((∀ d ∈ sh.input2.dims, ∃ n, d = NodeDim.Known n) →
      MulInstance.propagate_shape_constraints sh =
        (match NodeShape.merge
            ⟨sh.input2.dims.map (fun d => if d = NodeDim.Known 1 then NodeDim.Unknown else d)⟩
            sh.input1 with
         | Except.error e => PropResult.failed e
         | Except.ok output_shape =>
            match NodeShape.merge sh.output output_shape with
            | Except.error e => PropResult.failed e
            | Except.ok newOut => PropResult.ok newOut)) := by
  constructor
  · unfold MulInstance.propagate_shape_constraints
    cases hmap : mapMulDims sh.input2.dims with
    | none =>
        exact iff_of_true rfl ((mapMulDims_eq_none_iff sh.input2.dims).mp hmap)
    | some mapped =>
        have hnot : ¬ ¬ (∀ d ∈ sh.input2.dims, ∃ n, d = NodeDim.Known n) := by
          intro hc
          rw [(mapMulDims_eq_none_iff sh.input2.dims).mpr hc] at hmap
          exact Option.noConfusion hmap
        refine iff_of_false ?_ hnot
        rcases hm : NodeShape.merge ⟨mapped⟩ sh.input1 with e | os
        · simp [hm]
        · rcases hm2 : NodeShape.merge sh.output os with e2 | newOut
          · simp [hm, hm2]
          · simp [hm, hm2]
  · intro h
    unfold MulInstance.propagate_shape_constraints
    rw [mapMulDims_all_known sh.input2.dims h]

/-- The concrete shape triple for the C10 witness: input2 is [Known 1, Known 3]. -/
def mulShapesW : MulShapes :=
  ⟨⟨[NodeDim.Unknown, NodeDim.Known 3]⟩,
   ⟨[NodeDim.Known 1, NodeDim.Known 3]⟩,
   ⟨[NodeDim.Known 5, NodeDim.Unknown]⟩⟩

/-- Witness for C10 at a fully Known input2 shape. -/
theorem c10_mul_shape_propagation_witness :
    (∀ d ∈ mulShapesW.input2.dims, ∃ n, d = NodeDim.Known n) ∧
    MulInstance.propagate_shape_constraints mulShapesW =
      (match NodeShape.merge
          ⟨mulShapesW.input2.dims.map
            (fun d => if d = NodeDim.Known 1 then NodeDim.Unknown else d)⟩
          mulShapesW.input1 with
       | Except.error e => PropResult.failed e
       | Except.ok output_shape =>
          match NodeShape.merge mulShapesW.output output_shape with
          | Except.error e => PropResult.failed e
          | Except.ok newOut => PropResult.ok newOut) :=
  have h : ∀ d ∈ mulShapesW.input2.dims, ∃ n, d = NodeDim.Known n := by
    intro d hd
    rcases List.mem_cons.mp hd with h1 | h2
    · exact ⟨1, h1⟩
    · rcases List.mem_cons.mp h2 with h3 | h4
      · exact ⟨3, h3⟩
      · exact absurd h4 (List.not_mem_nil d)
  ⟨h, (c10_mul_shape_propagation mulShapesW).2 h⟩
